import Mathlib

/-!
Formal model of the device session and driver engine of `devicemanager/dc.py`
(ecstasy repository).

The Python code drives interactive CLI sessions over pexpect.  We embed it
shallowly:

* Pure helper functions (`_range_to_numbers`, `_interface_normal_view`,
  vendor classification) become Lean functions over `List Char` / `String`.
  Python exceptions are modelled with `Except PyErr`; `int(...)` becomes an
  explicit parser that can fail with `valueError`.
* Stateful expect/send protocols (`BaseDevice.send_command`, the SSH and
  Telnet branches of `DeviceFactory.__enter__`, the ZTE privileged guard)
  become functions over an explicit script of expect outcomes: each call to
  `session.expect(...)` consumes one event of the script, and every
  `send`/`sendline` is recorded in an output trace.  A `pexpect.TIMEOUT`
  entry in the pattern list is an ordinary event; a timeout raised by an
  expect call whose pattern list does not contain `pexpect.TIMEOUT` is an
  `Except` error unless the source wraps the call in `try/except`.

Names follow the Python source where Lean allows it.
-/

namespace Ecstasy

/-- Python exception kinds that the modelled code can raise. -/
inductive PyErr where
  | timeoutErr   -- pexpect.TIMEOUT escaping an expect call
  | indexError   -- list indexing like `re.findall(...)[0]` on an empty result
  | valueError   -- int() applied to a non-numeric string
deriving DecidableEq, Repr

/-! ## Character and string helpers shared by the pure functions -/

/-- Membership test for Python's `needle in haystack` on lists of characters:
`needle` occurs as a contiguous sublist of `hay` (the empty needle matches). -/
def listContains (needle : List Char) : List Char → Bool
  | [] => needle.isEmpty
  | c :: t => needle.isPrefixOf (c :: t) || listContains needle t

/-- Python's substring test `needle in hay` for strings. -/
def containsSub (hay needle : String) : Bool :=
  listContains needle.toList hay.toList

/-- Python's `str.split(sep)` with a one-character separator: keeps empty
fragments, always returns at least one fragment. -/
def splitOnChar (sep : Char) : List Char → List (List Char)
  | [] => [[]]
  | c :: t =>
    let r := splitOnChar sep t
    if c = sep then [] :: r
    else
      match r with
      | h :: t2 => (c :: h) :: t2
      | [] => [[c]]

/-- Numeric value of a list of decimal digit characters (most significant
first), as computed by Python's `int`. -/
def digitsVal (cs : List Char) : Nat :=
  cs.foldl (fun a c => 10 * a + (c.toNat - '0'.toNat)) 0

/-- Python's `str.strip()`: drop whitespace from both ends. -/
def pyStrip (cs : List Char) : List Char :=
  ((cs.dropWhile Char.isWhitespace).reverse.dropWhile Char.isWhitespace).reverse

/-- Python's `int(s)` restricted to the shapes reachable in this code:
surrounding whitespace is ignored, an optional leading `+` sign is accepted,
and the remainder must be a non-empty run of decimal digits.  (The Python
builtin also accepts `-`, underscores and Unicode digits; `-` never reaches
`int` here because tokens are split on `-` first, and the other forms do not
occur in CLI output.)  Returns `none` where Python raises `ValueError`. -/
def pyIntNat? (s : String) : Option Nat :=
  let cs0 := pyStrip s.toList
  let cs := if cs0.head? = some '+' then cs0.tail else cs0
  if cs.isEmpty then none
  else if cs.all Char.isDigit then some (digitsVal cs) else none

/-- Python's `int(s)` as a fallible computation (`ValueError` on failure). -/
def pyInt (s : String) : Except PyErr Nat :=
  match pyIntNat? s with
  | some n => .ok n
  | none => .error .valueError

/-- Accumulator pass for `pySplitWS`; `acc` holds the current token
reversed. -/
def pySplitWSAux : List Char → List Char → List String
  | [], acc => if acc.isEmpty then [] else [String.mk acc.reverse]
  | c :: t, acc =>
    if c.isWhitespace then
      if acc.isEmpty then pySplitWSAux t []
      else String.mk acc.reverse :: pySplitWSAux t []
    else pySplitWSAux t (c :: acc)

/-- Python's `str.split()` with no argument: split on whitespace runs and
drop empty fragments. -/
def pySplitWS (cs : List Char) : List String :=
  pySplitWSAux cs []

/-! ## `_range_to_numbers` (dc.py lines 69-107)

Turns a string holding numbers and numeric ranges into a sorted list.
The source distinguishes three shapes: a string containing `"to"` is scanned
with the regex `(\d+)\s*to\s*(\d+)`; otherwise a string containing a comma
is split on commas after removing spaces; otherwise it is split on
whitespace.  Per-token parsing failures in the last two shapes are swallowed
by a bare `try/except`. -/

/-- One attempt to match the regex `\d+\s*to\s*(\d+)` at the head of `cs`:
returns the two digit groups and the remainder after the match. -/
def matchToRange (cs : List Char) : Option (String × String × List Char) :=
  if (cs.takeWhile Char.isDigit).isEmpty then none
  else
    match (cs.dropWhile Char.isDigit).dropWhile Char.isWhitespace with
    | 't' :: 'o' :: r2 =>
      if ((r2.dropWhile Char.isWhitespace).takeWhile Char.isDigit).isEmpty then none
      else
        some (String.mk (cs.takeWhile Char.isDigit),
          String.mk ((r2.dropWhile Char.isWhitespace).takeWhile Char.isDigit),
          (r2.dropWhile Char.isWhitespace).dropWhile Char.isDigit)
    | _ => none

/-- Fuel-driven scan for all non-overlapping matches of
`(\d+)\s*to\s*(\d+)`, in order, as Python's `re.findall` returns them.
Each successful match consumes at least one character, so `cs.length` fuel
always suffices (see `findToRanges`). -/
def findToRangesAux : Nat → List Char → List (String × String)
  | 0, _ => []
  | _ + 1, [] => []
  | fuel + 1, c :: t =>
    match matchToRange (c :: t) with
    | some (a, b, rest) => (a, b) :: findToRangesAux fuel rest
    | none => findToRangesAux fuel t

/-- All matches of `(\d+)\s*to\s*(\d+)` in `cs`, in order. -/
def findToRanges (cs : List Char) : List (String × String) :=
  findToRangesAux cs.length cs

/-- Python's `range(a, b + 1)` as a list (empty when `b < a`). -/
def pyRangeIncl (a b : Nat) : List Nat :=
  List.range' a (b + 1 - a)

/-- Python's `sorted` on a list of naturals (ascending, stable;
stability is irrelevant for `Nat`). -/
def pySorted (l : List Nat) : List Nat :=
  List.insertionSort (· ≤ ·) l

/-- One token of the comma- or whitespace-separated branch, under the bare
`try/except` of the source: a token containing `-` contributes
`range(int(parts[0]), int(parts[1]) + 1)`, any other token contributes
`int(token)`, and any `int` failure silently discards the token. -/
def parseToken (p : String) : List Nat :=
  if containsSub p "-" then
    match splitOnChar '-' p.toList with
    | a :: b :: _ =>
      match pyIntNat? (String.mk a), pyIntNat? (String.mk b) with
      | some x, some y => pyRangeIncl x y
      | _, _ => []
    | _ => []
  else
    match pyIntNat? p with
    | some n => [n]
    | none => []

/-- One scanned range pair of the `"to"` branch:
`list(range(int(v[0]), int(v[1]) + 1))`, with `int` applied outside any
`try`. -/
def toRangeItem (ab : String × String) : Except PyErr (List Nat) := do
  let x ← pyInt ab.1
  let y ← pyInt ab.2
  pure (pyRangeIncl x y)

/-- `_range_to_numbers` (dc.py lines 69-107).  The `Except` layer records
the possibility of an uncaught exception: the `"to"` branch applies `int`
outside any `try`, while the other branches only run `int` inside
`try/except` (modelled by the total `parseToken`). -/
def range_to_numbers (ports_string : String) : Except PyErr (List Nat) := do
  if containsSub ports_string "to" then
    let nums ← (findToRanges ports_string.toList).mapM toRangeItem
    pure (pySorted nums.flatten)
  else
    let tokens :=
      if containsSub ports_string "," then
        splitOnChar ',' (ports_string.toList.filter (· ≠ ' ')) |>.map String.mk
      else
        pySplitWS ports_string.toList
    pure (pySorted (tokens.map parseToken).flatten)


/-! ## `_interface_normal_view` (dc.py lines 41-66)

Normalises an interface name to the default switch notation.  The source
first runs `re.findall(r'(\d+([/\\]?\d*)*)', interface)` and then branches
on the name's prefix; branches that use the first number group index into
the `findall` result with `[0][0]`, which raises `IndexError` when the
name contains no digits. -/

/-- Fuel-driven continuation of the number-group regex after the leading
digits: repeatedly consume an optional `/` or `\` separator followed by
digits, as `([/\\]?\d*)*` does.  Each iteration consumes at least the
separator character, so `cs.length` fuel always suffices. -/
def sepDigitsAux : Nat → List Char → List Char
  | 0, _ => []
  | _ + 1, [] => []
  | fuel + 1, c :: t =>
    if c = '/' ∨ c = '\\' then
      (c :: t.takeWhile Char.isDigit) ++ sepDigitsAux fuel (t.dropWhile Char.isDigit)
    else []

/-- Separator-and-digits continuation of the number-group regex. -/
def sepDigits (cs : List Char) : List Char :=
  sepDigitsAux cs.length cs

/-- Group 1 of the first match of `(\d+([/\\]?\d*)*)`, i.e.
`re.findall(...)[0][0]`, or `none` when there is no match. -/
def firstNumberGroup : List Char → Option (List Char)
  | [] => none
  | c :: t =>
    if c.isDigit then
      some ((c :: t).takeWhile Char.isDigit ++ sepDigits ((c :: t).dropWhile Char.isDigit))
    else firstNumberGroup t

/-- True when `cs` starts with two characters satisfying `p1` and `p2`:
the anchored two-character prefix regexes of the source. -/
def startsWith2 (cs : List Char) (p1 p2 : Char → Bool) : Bool :=
  match cs with
  | a :: b :: _ => p1 a && p2 b
  | _ => false

/-- `_interface_normal_view` (dc.py lines 41-66).  `Except` captures the
`IndexError` raised by `interface_number[0][0]` when a prefix rule matches
but the name has no digits. -/
def interface_normal_view (interface : String) : Except PyErr String :=
  let cs := interface.toList
  let numG := firstNumberGroup cs
  let joinNum : String → Except PyErr String := fun pre =>
    match numG with
    | some n => .ok (pre ++ " " ++ String.mk n)
    | none => .error .indexError
  if startsWith2 cs (fun c => c = 'E' || c = 'e') (fun c => c = 't') then
    joinNum "Ethernet"
  else if startsWith2 cs (fun c => c = 'F' || c = 'f') (fun c => c = 'a') then
    joinNum "FastEthernet"
  else if startsWith2 cs (fun c => c = 'G' || c = 'g') (fun c => c = 'i' || c = 'e' || c = 'E') then
    joinNum "GigabitEthernet"
  else if (cs.head?.map Char.isDigit).getD false then
    .ok (String.mk (cs.takeWhile Char.isDigit))
  else if startsWith2 cs (fun c => c = 'T' || c = 't') (fun c => c = 'e') then
    joinNum "TenGigabitEthernet"
  else
    .ok ""

/-- Command string built by `Huawei.get_mac` for an S2403 model
(dc.py line 567); the port normalisation runs before the command is sent,
so its `IndexError` escapes `get_mac`. -/
def huawei_get_mac_command (port : String) : Except PyErr String := do
  let p ← interface_normal_view port
  pure ("display mac-address interface " ++ p)

/-! ## `BaseDevice.send_command` (dc.py lines 144-205)

The executor sends the command, optionally consumes the command echo and a
`before_catch` anchor (single-pattern expect calls whose timeout is an
uncaught `pexpect.TIMEOUT`), and then either runs the pagination loop
(patterns `[prompt, space_prompt, pexpect.TIMEOUT]`, timeout an ordinary
outcome) or waits once for the prompt inside `try/except pexpect.TIMEOUT`.
Each expect call consumes one event of a script; every byte written to the
session is recorded as a `Send`. -/

/-- One write to the session: `sendline` (with line ending) or raw `send`. -/
inductive Send where
  | line (s : String)
  | raw (s : String)
deriving DecidableEq, Repr

/-- Outcome of one iteration of the pagination expect call
`expect([prompt, space_prompt, pexpect.TIMEOUT])`: which pattern matched,
with the text read before the match (`session.before`). -/
inductive LoopEv where
  | prompt (before : String)
  | more (before : String)
  | tmo (before : String)
deriving DecidableEq, Repr

/-- Outcome of a single-pattern expect call: the pattern matched, or the
call timed out, in both cases with the text read (`session.before`). -/
inductive OneEv where
  | hit (before : String)
  | tmo (before : String)
deriving DecidableEq, Repr

/-- True for a successful single-pattern expect outcome. -/
def OneEv.isHit : OneEv → Bool
  | .hit _ => true
  | .tmo _ => false

/-- The pagination `while` loop of `send_command` (dc.py lines 176-197):
on the prompt, append `before` and stop; on the space prompt, append
`before`, send a single space, append a line break and continue
(decrementing `pages_limit` when set); on timeout, append `before` and
stop.  Returns the accumulated output and the continuation sends. -/
def pageLoop : Option Nat → List LoopEv → String × List Send
  | some 0, _ => ("", [])
  | _, [] => ("", [])
  | _, .prompt b :: _ => (b, [])
  | _, .tmo b :: _ => (b, [])
  | none, .more b :: rest =>
    let o := pageLoop none rest
    (b ++ "\n" ++ o.1, Send.raw " " :: o.2)
  | some (n + 1), .more b :: rest =>
    let o := pageLoop (some n) rest
    (b ++ "\n" ++ o.1, Send.raw " " :: o.2)

/-- Static arguments of `send_command` that the model depends on. -/
structure SCArgs where
  command : String
  expectCommand : Bool
  hasBeforeCatch : Bool
  hasSpacePrompt : Bool
  pagesLimit : Option Nat
deriving DecidableEq, Repr

/-- `BaseDevice.send_command` (dc.py lines 144-205) over a script of expect
outcomes: `echoEv` answers the command-echo expect, `beforeEv` the
`before_catch` expect, `loopScript` the pagination loop, and `finalEv` the
single prompt wait of the non-paginated branch.  A timeout in the echo or
`before_catch` phase escapes as an exception; the other timeouts do not. -/
def send_command (a : SCArgs) (echoEv beforeEv : OneEv) (loopScript : List LoopEv)
    (finalEv : OneEv) : Except PyErr (String × List Send) := do
  let sends := [Send.line a.command]
  if a.expectCommand ∧ ¬ echoEv.isHit then
    throw .timeoutErr
  else if a.hasBeforeCatch ∧ ¬ beforeEv.isHit then
    throw .timeoutErr
  else if a.hasSpacePrompt then
    let o := pageLoop a.pagesLimit loopScript
    pure (o.1, sends ++ o.2)
  else
    match finalEv with
    | .hit b => pure (b, sends)
    | .tmo b => pure (b, sends)

/-! ## SSH branch of `DeviceFactory.__enter__` (dc.py lines 2280-2332)

The negotiator iterates over credential pairs (with a final literal
`admin`/`admin` fallback), spawning `ssh login@ip{algorithm_str}{cipher_str}`
and driving an inner `while not connected` loop over the expect outcomes.
`algorithm_str` and `cipher_str` are function-local variables mutated on
key-exchange and cipher rejections and reused by every later spawn, both
within a credential attempt and across credential attempts. -/

/-- One spawned SSH client command, decomposed into the parts the f-string
`ssh {login}@{self.ip}{algorithm_str}{cipher_str}` is built from. -/
structure SpawnCmd where
  login : String
  host : String
  algStr : String
  ciphStr : String
deriving DecidableEq, Repr

/-- The full command string of a spawn, as the source builds it. -/
def SpawnCmd.render (s : SpawnCmd) : String :=
  "ssh " ++ s.login ++ "@" ++ s.host ++ s.algStr ++ s.ciphStr

/-- Outcome of one iteration of the SSH expect call (patterns 0-5 of
dc.py lines 2291-2300).  Rejection events carry the text read up to EOF by
the follow-up `expect(pexpect.EOF)`, from which `Their offer:` is parsed.
A password prompt carries the outcome of the nested expect after the
password is sent: `accepted = true` for a shell prompt, `false` for a
repeated password prompt (login rejected). -/
inductive SSHEv where
  | kexRej (eofText : String)
  | ciphRej (eofText : String)
  | hostAuth
  | passPrompt (accepted : Bool)
  | shellPrompt
  | connClosed
deriving DecidableEq, Repr

/-- First match of `re.findall(r'Their offer: (\S+)', s)`: the run of
non-whitespace characters after the first `"Their offer: "` that is
followed by at least one non-whitespace character. -/
def findOfferAux : List Char → Option String
  | [] => none
  | c :: t =>
    if "Their offer: ".toList.isPrefixOf (c :: t) then
      let rest := (c :: t).drop "Their offer: ".toList.length
      let tok := rest.takeWhile (fun x => ¬ x.isWhitespace)
      if tok.isEmpty then findOfferAux t else some (String.mk tok)
    else findOfferAux t

/-- `Their offer:` extraction from the EOF text of a rejection message. -/
def findOffer (s : String) : Option String :=
  findOfferAux s.toList

/-- The kex override option built on a key-exchange rejection:
`f' -oKexAlgorithms=+{algorithm[0]}'`. -/
def kexOpt (a : String) : String :=
  " -oKexAlgorithms=+" ++ a

/-- The last element of the comma-separated offer list:
`cipher[0].split(",")[-1]`. -/
def lastCipher (c : String) : String :=
  (splitOnChar ',' c.toList).getLastD [] |> String.mk

/-- The cipher override option built on a cipher rejection:
`f' -c {cipher[0].split(",")[-1]}'`. -/
def ciphOpt (c : String) : String :=
  " -c " ++ lastCipher c

/-- True for an event on which the source resolves a new kex override
(a key-exchange rejection whose EOF text carries a `Their offer:` list). -/
def kexResolving : SSHEv → Bool
  | .kexRej eofText => (findOffer eofText).isSome
  | _ => false

/-- How the inner `while not connected` loop of one credential attempt
ended. -/
inductive LoopExit where
  | connectedE   -- shell prompt reached (directly or after the password)
  | tryNext      -- password rejected: break and try the next credential
  | scriptEnd    -- the event script ran out while still looping
deriving DecidableEq, Repr

/-- Result of the inner loop: final override strings, the respawns it
performed, the bytes it sent, the unconsumed script, and how it ended. -/
structure LoopOut where
  alg : String
  ciph : String
  spawns : List SpawnCmd
  sends : List Send
  rest : List SSHEv
  exit : LoopExit
deriving Repr

/-- The inner `while not connected` loop of the SSH branch (dc.py lines
2290-2328) for the credential `login`/`password`, starting from override
strings `alg`/`ciph`.  Kex and cipher rejections that carry an offer
mutate the corresponding override and respawn with both current overrides;
rejections without an offer change nothing; `connClosed` has no handler in
the source, so the loop simply expects again. -/
def sshLoop (host login password : String) (alg ciph : String) :
    List SSHEv → LoopOut
  | [] => ⟨alg, ciph, [], [], [], .scriptEnd⟩
  | .kexRej eofText :: rest =>
    (match findOffer eofText with
     | some a =>
       let alg' := kexOpt a
       let o := sshLoop host login password alg' ciph rest
       ⟨o.alg, o.ciph, SpawnCmd.mk login host alg' ciph :: o.spawns, o.sends, o.rest, o.exit⟩
     | none => sshLoop host login password alg ciph rest)
  | .ciphRej eofText :: rest =>
    (match findOffer eofText with
     | some c =>
       let ciph' := ciphOpt c
       let o := sshLoop host login password alg ciph' rest
       ⟨o.alg, o.ciph, SpawnCmd.mk login host alg ciph' :: o.spawns, o.sends, o.rest, o.exit⟩
     | none => sshLoop host login password alg ciph rest)
  | .hostAuth :: rest =>
    let o := sshLoop host login password alg ciph rest
    ⟨o.alg, o.ciph, o.spawns, Send.line "yes" :: o.sends, o.rest, o.exit⟩
  | .passPrompt accepted :: rest =>
    ⟨alg, ciph, [], [Send.line password], rest,
      if accepted then .connectedE else .tryNext⟩
  | .shellPrompt :: rest => ⟨alg, ciph, [], [], rest, .connectedE⟩
  | .connClosed :: rest => sshLoop host login password alg ciph rest

/-- Result of the whole credential `for` loop. -/
inductive SSHResult where
  | connected (login password : String)
  | exhausted   -- all pairs (including the admin fallback) were rejected
  | scriptEnd
deriving DecidableEq, Repr

/-- Trace of the credential `for` loop: every spawn in order, every send,
the unconsumed script and the result. -/
structure AttemptOut where
  spawns : List SpawnCmd
  sends : List Send
  rest : List SSHEv
  result : SSHResult
deriving Repr

/-- The credential `for` loop of the SSH branch (dc.py lines 2286-2332):
spawn with the current override strings, run the inner loop, and on a
rejected password move to the next pair, keeping the override strings the
inner loop ended with. -/
def sshAttempt (host : String) :
    List (String × String) → String → String → List SSHEv → AttemptOut
  | [], _, _, script => ⟨[], [], script, .exhausted⟩
  | (l, p) :: creds, alg, ciph, script =>
    let o := sshLoop host l p alg ciph script
    let sp0 := SpawnCmd.mk l host alg ciph
    match o.exit with
    | .connectedE => ⟨sp0 :: o.spawns, o.sends, o.rest, .connected l p⟩
    | .scriptEnd => ⟨sp0 :: o.spawns, o.sends, o.rest, .scriptEnd⟩
    | .tryNext =>
      let o2 := sshAttempt host creds o.alg o.ciph o.rest
      ⟨sp0 :: o.spawns ++ o2.spawns, o.sends ++ o2.sends, o2.rest, o2.result⟩

/-- Entry point of the SSH branch: the credential lists are zipped and the
literal `admin`/`admin` pair is appended to each, and the override strings
start from the (default empty) `algorithm`/`cipher` arguments. -/
def sshConnect (host : String) (logins passwords : List String)
    (script : List SSHEv) : AttemptOut :=
  sshAttempt host (List.zip (logins ++ ["admin"]) (passwords ++ ["admin"])) "" "" script

/-! ## Telnet branch of `DeviceFactory.__enter__` (dc.py lines 2334-2386)

A `for` loop over credential pairs wraps a `while not connected` loop over
the expect outcomes.  Inside the `while`, a login-style prompt (patterns
0-2) answers with the current pair's login and `continue`s, a password
prompt answers with its password and `continue`s, a radius timeout
`continue`s silently, connection failures return immediately, a shell
prompt connects, and only the `Press any key` banner path falls through to
the trailing `break` that lets the `for` advance to the next pair.  The
whole block sits in `try/except pexpect.TIMEOUT`. -/

/-- Outcome of one iteration of the telnet expect call (patterns 0-8 of
dc.py lines 2339-2352).  The three login-style prompts (login/user/name)
behave identically and are modelled by one constructor.  `anyKey` carries
the outcome of the nested `expect(r'[#>\]]\s*')` after the banner. -/
inductive TelEv where
  | loginP
  | passP
  | closedConn   -- Connection closed
  | unable       -- Unable to connect
  | shellP
  | anyKey (promptOk : Bool)
  | radius
deriving DecidableEq, Repr

/-- How the telnet `while not connected` loop of one credential ended. -/
inductive TelExit where
  | tConnected
  | tUnreach
  | tTimeout   -- pexpect.TIMEOUT raised (script exhausted or banner wait failed)
  | tBroke     -- fell through to the trailing break with connected still False
deriving DecidableEq, Repr

/-- The telnet `while not connected` loop for the pair `l`/`p`: returns
the sendline payloads in order, the unconsumed script, and the exit kind.
An exhausted script stands for a session that produces no further output,
on which the next `expect` raises `pexpect.TIMEOUT`. -/
def telLoop (l p : String) : List TelEv → List String × List TelEv × TelExit
  | [] => ([], [], .tTimeout)
  | .loginP :: rest =>
    let o := telLoop l p rest
    (l :: o.1, o.2.1, o.2.2)
  | .passP :: rest =>
    let o := telLoop l p rest
    (p :: o.1, o.2.1, o.2.2)
  | .closedConn :: rest => ([], rest, .tUnreach)
  | .unable :: rest => ([], rest, .tUnreach)
  | .shellP :: rest => ([], rest, .tConnected)
  | .anyKey promptOk :: rest =>
    ([" ", l, p], rest, if promptOk then .tBroke else .tTimeout)
  | .radius :: rest => telLoop l p rest

/-- Result of the whole telnet branch, mirroring its return values. -/
inductive TelRes where
  | connected (l p : String)
  | unreachable     -- "Telnet недоступен!"
  | badCredentials  -- "Неверный логин или пароль!" (for-else)
  | timeoutMsg      -- "Login Error: Время ожидания превышено!"
deriving DecidableEq, Repr

/-- Trace of the telnet credential `for` loop: sends in order plus result. -/
structure TelnetOut where
  sends : List String
  result : TelRes
deriving DecidableEq, Repr

/-- The telnet credential `for` loop (dc.py lines 2337-2384): run the
`while` loop for the current pair; only a `tBroke` exit advances to the
next pair, and exhausting all pairs returns the bad-credentials message. -/
def telnetConnect : List (String × String) → List TelEv → TelnetOut
  | [], _ => ⟨[], .badCredentials⟩
  | (l, p) :: creds, script =>
    let o := telLoop l p script
    match o.2.2 with
    | .tConnected => ⟨o.1, .connected l p⟩
    | .tUnreach => ⟨o.1, .unreachable⟩
    | .tTimeout => ⟨o.1, .timeoutMsg⟩
    | .tBroke =>
      let o2 := telnetConnect creds o.2.1
      ⟨o.1 ++ o2.sends, o2.result⟩

/-! ## ZTE driver: privileged mode and port operations
(dc.py lines 295-312, 355-364, 393-421)

`ZTE.__init__` sends `enable` and sets the private `__privileged` flag from
the expect outcomes; `reload_port` and `set_port` first check that flag and
return a refusal message without touching the session when it is off. -/

/-- Outcome of the `enable` expect call of `ZTE.__init__` (patterns
`[prompt, r'password', r'[Ss]imultaneous']`).  `passAsk` carries the
outcome of the nested expect after the secret is sent: `refused = true`
when `refused` matched (index 0), `false` when `(cfg)#` matched. -/
inductive ZteEnableEv where
  | alreadyPrompt
  | passAsk (refused : Bool)
  | simultaneous
deriving DecidableEq, Repr

/-- The `__privileged` flag as `ZTE.__init__` computes it (dc.py lines
300-312): prompt means already privileged; after sending the secret,
  `(cfg)#` (nested index 1) sets it and `refused` (index 0) clears it;
`Simultaneous` clears it. -/
def ztePrivileged : ZteEnableEv → Bool
  | .alreadyPrompt => true
  | .passAsk refused => ¬ refused
  | .simultaneous => false

/-- `ZTE.validate_port` (dc.py lines 355-364): strip the port string and
accept it only if it is a non-empty run of digits. -/
def zteValidatePort (port : String) : Option String :=
  let p := pyStrip port.toList
  if p.isEmpty then none
  else if p.all Char.isDigit then some (String.mk p) else none

/-- Refusal message of the unprivileged guard. -/
def ztePrivRefusal : String := "Не привилегированный. Операция отклонена!"

/-- Invalid-port message of the ZTE driver. -/
def zteBadPort : String := "Неверный порт!"

/-- `ZTE.reload_port` (dc.py lines 393-404) as a function of the
privileged flag and the port, with the sends and result of the embedded
`save_config` call passed in as `saveSends`/`saveResult`.  Returns the
sendline payloads issued to the session and the returned string. -/
def zteReloadPort (privileged : Bool) (port : String)
    (saveSends : List String) (saveResult : String) : List String × String :=
  if ¬ privileged then ([], ztePrivRefusal)
  else
    match zteValidatePort port with
    | none => ([], zteBadPort)
    | some p =>
      (("set port " ++ p ++ " disable") :: ("set port " ++ p ++ " enable") :: saveSends,
        "reset port " ++ p ++ " " ++ saveResult)

/-- `ZTE.set_port` (dc.py lines 406-421): same guard order as
`reload_port`, then a status dispatch. -/
def zteSetPort (privileged : Bool) (port status : String)
    (saveSends : List String) (saveResult : String) : List String × String :=
  if ¬ privileged then ([], ztePrivRefusal)
  else
    match zteValidatePort port with
    | none => ([], zteBadPort)
    | some p =>
      if status = "down" then
        (("set port " ++ p ++ " disable") :: saveSends,
          status ++ " port " ++ p ++ " " ++ saveResult)
      else if status = "up" then
        (("set port " ++ p ++ " enable") :: saveSends,
          status ++ " port " ++ p ++ " " ++ saveResult)
      else ([], "Неверный статус " ++ status)

/-- `ZTE.get_mac` (dc.py lines 366-381) up to the command it sends: an
invalid port returns `[]` before anything is sent; a valid port sends the
`show fdb` command and parses its output (parsing left abstract as the
resulting pair list comes from TextFSM-style regexes over live output). -/
def zteGetMacAction (port : String) : List String × Bool :=
  match zteValidatePort port with
  | none => ([], false)
  | some p => (["show fdb port " ++ p ++ " detail"], true)

/-! ## Vendor classification: `DeviceFactory.__get_device`
(dc.py lines 2161-2278)

After the probe output `version` is accumulated, an if/elif chain selects
the driver constructor.  Three branches consult data beyond `version`: the
Eltex branch constructs an intermediate `_Eltex` object and dispatches on
the model string it probes (`eltexModel` below), and the
`% Unknown command` and Zyxel branches append the output of a second probe
to `version` (`probe2` below) before their sub-checks.  Model strings that
the selected constructors later extract do not influence which constructor
is selected and are not modelled. -/

/-- The driver constructor (or non-driver outcome) that
`DeviceFactory.__get_device` can select. -/
inductive CTag where
  | procurve
  | zte
  | huawei
  | cisco
  | dlink
  | edgecore
  | eltexMES
  | eltexESR
  | extreme
  | qtech
  | iskratelControl
  | iskratelMBan
  | ma5600
  | juniper
  | noDevice       -- a branch that falls through and returns None
  | unrecognized   -- the final else: 'Не удалось распознать оборудование'
deriving DecidableEq, Repr

/-- Python's `str.lower()` restricted to ASCII case mapping. -/
def pyLower (s : String) : String :=
  String.mk (s.toList.map Char.toLower)

/-- `DeviceFactory.__get_device` (dc.py lines 2189-2278) as the source's
if/elif chain over the accumulated probe output `version`, the `_Eltex`
model string `eltexModel`, and the appended second-probe output
`probe2`. -/
def classifyDevice (version eltexModel probe2 : String) : CTag :=
  if containsSub version "Image stamp:" then .procurve
  else if containsSub version " ZTE Corporation:" then .zte
  else if containsSub version "Unrecognized command" then .huawei
  else if containsSub (pyLower version) "cisco" then .cisco
  else if containsSub version "Next possible completions:" then .dlink
  else if containsSub version "Hardware version" then .edgecore
  else if containsSub version "Active-image:" || containsSub version "Boot version:" then
    (if containsSub eltexModel "MES" then .eltexMES
     else if containsSub eltexModel "ESR" then .eltexESR
     else .noDevice)
  else if containsSub version "ExtremeXOS" then .extreme
  else if containsSub version "QTECH" then .qtech
  else if containsSub version "ISKRATEL" then .iskratelControl
  else if containsSub version "IskraTEL" then .iskratelMBan
  else if containsSub version "% Unknown command" then
    (if containsSub (version ++ probe2) "VERSION : MA5600" then .ma5600
     else .noDevice)
  else if containsSub version "show: invalid command, valid commands are" then .noDevice
  else if containsSub version "unknown keyword show" then .juniper
  else .unrecognized

/-- One vendor-signature rule: a pattern on the accumulated output, and the
constructor selection (which for the second-probe rules may consult the
output and the extra probe data). -/
structure SigRule where
  pat : String → Bool
  act : String → CTag

/-- The signature table of `__get_device`, top to bottom, as data.  The
rows are exactly the conditions and branch bodies of the source chain. -/
def sigRules (eltexModel probe2 : String) : List SigRule :=
  [ ⟨fun v => containsSub v "Image stamp:", fun _ => .procurve⟩,
    ⟨fun v => containsSub v " ZTE Corporation:", fun _ => .zte⟩,
    ⟨fun v => containsSub v "Unrecognized command", fun _ => .huawei⟩,
    ⟨fun v => containsSub (pyLower v) "cisco", fun _ => .cisco⟩,
    ⟨fun v => containsSub v "Next possible completions:", fun _ => .dlink⟩,
    ⟨fun v => containsSub v "Hardware version", fun _ => .edgecore⟩,
    ⟨fun v => containsSub v "Active-image:" || containsSub v "Boot version:",
      fun _ =>
        if containsSub eltexModel "MES" then .eltexMES
        else if containsSub eltexModel "ESR" then .eltexESR
        else .noDevice⟩,
    ⟨fun v => containsSub v "ExtremeXOS", fun _ => .extreme⟩,
    ⟨fun v => containsSub v "QTECH", fun _ => .qtech⟩,
    ⟨fun v => containsSub v "ISKRATEL", fun _ => .iskratelControl⟩,
    ⟨fun v => containsSub v "IskraTEL", fun _ => .iskratelMBan⟩,
    ⟨fun v => containsSub v "% Unknown command",
      fun v =>
        if containsSub (v ++ probe2) "VERSION : MA5600" then .ma5600
        else .noDevice⟩,
    ⟨fun v => containsSub v "show: invalid command, valid commands are", fun _ => .noDevice⟩,
    ⟨fun v => containsSub v "unknown keyword show", fun _ => .juniper⟩ ]

/-- First-match evaluation of an ordered signature table; no match falls
through to the `unrecognized` outcome. -/
def firstMatch : List SigRule → String → CTag
  | [], _ => .unrecognized
  | r :: rest, v => if r.pat v then r.act v else firstMatch rest v

/-! ## Synthetic paginated streams for the pagination round-trip -/

/-- The script of a synthetic session that delivers the given pages: the
space prompt appears before each page except the last, which ends at the
command prompt. -/
def pagesScript : List String → List LoopEv
  | [] => []
  | [p] => [LoopEv.prompt p]
  | p :: q :: r => LoopEv.more p :: pagesScript (q :: r)

/-- The pages in order, with a line break after each page except the last
(the break the executor appends after each continuation send). -/
def joinPages : List String → String
  | [] => ""
  | [p] => p
  | p :: q :: r => p ++ "\n" ++ joinPages (q :: r)

/-! ## Helper lemmas -/

/-- A decimal digit is not whitespace. -/
theorem isWhitespace_eq_false_of_isDigit (c : Char) (h : c.isDigit = true) :
    c.isWhitespace = false := by
  by_contra hne
  rw [Bool.not_eq_false] at hne
  simp only [Char.isWhitespace, Bool.or_eq_true, decide_eq_true_eq] at hne
  rcases hne with ((rfl | rfl) | rfl) | rfl <;> exact absurd h (by decide)

/-- A decimal digit is not the plus sign. -/
theorem ne_plus_of_isDigit (c : Char) (h : c.isDigit = true) : c ≠ '+' := by
  rintro rfl
  exact absurd h (by decide)

/-- `dropWhile` is the identity on a list none of whose elements satisfy
the predicate. -/
theorem dropWhile_eq_self_of_all {p : Char → Bool} :
    ∀ l : List Char, (∀ c ∈ l, p c = false) → l.dropWhile p = l
  | [], _ => rfl
  | a :: t, h => by
    rw [List.dropWhile_cons, if_neg]
    simp [h a (List.mem_cons_self a t)]

/-- `pyStrip` is the identity on a run of digits. -/
theorem pyStrip_digits (cs : List Char) (h : ∀ c ∈ cs, c.isDigit = true) :
    pyStrip cs = cs := by
  unfold pyStrip
  rw [dropWhile_eq_self_of_all cs (fun c hc => isWhitespace_eq_false_of_isDigit c (h c hc)),
    dropWhile_eq_self_of_all cs.reverse
      (fun c hc => isWhitespace_eq_false_of_isDigit c (h c (List.mem_reverse.mp hc))),
    List.reverse_reverse]

/-- `int` succeeds on a non-empty run of digits. -/
theorem pyIntNat?_digits (cs : List Char) (h0 : cs.isEmpty = false)
    (h : ∀ c ∈ cs, c.isDigit = true) :
    pyIntNat? (String.mk cs) = some (digitsVal cs) := by
  cases cs with
  | nil => simp at h0
  | cons a t =>
    have ha : a ≠ '+' := ne_plus_of_isDigit a (h a (List.mem_cons_self a t))
    have hstrip : pyStrip (String.mk (a :: t)).toList = a :: t := pyStrip_digits _ h
    unfold pyIntNat?
    simp only [hstrip, List.head?_cons, List.tail_cons]
    rw [if_neg (show ¬ (some a = some '+') by simp [ha])]
    rw [if_neg (by simp), if_pos (by simpa using h)]

/-- `pyInt` succeeds on a non-empty run of digits. -/
theorem pyInt_digits (cs : List Char) (h0 : cs.isEmpty = false)
    (h : ∀ c ∈ cs, c.isDigit = true) :
    pyInt (String.mk cs) = .ok (digitsVal cs) := by
  unfold pyInt
  rw [pyIntNat?_digits cs h0 h]

/-- Shape of a successful `matchToRange`: both groups are non-empty digit
runs. -/
theorem matchToRange_some {cs : List Char} {a b : String} {rest : List Char}
    (h : matchToRange cs = some (a, b, rest)) :
    (∃ l, a = String.mk l ∧ l.isEmpty = false ∧ ∀ c ∈ l, c.isDigit = true) ∧
    (∃ l, b = String.mk l ∧ l.isEmpty = false ∧ ∀ c ∈ l, c.isDigit = true) := by
  unfold matchToRange at h
  split at h
  · exact absurd h (by simp)
  · rename_i h1
    split at h
    · split at h
      · exact absurd h (by simp)
      · rename_i h2
        rw [Option.some_inj] at h
        have ha := congrArg (fun x => x.1) h
        have hb := congrArg (fun x => x.2.1) h
        simp only at ha hb
        refine ⟨⟨_, ha.symm, ?_, ?_⟩, ⟨_, hb.symm, ?_, ?_⟩⟩
        · simpa using h1
        · intro c hc
          exact List.mem_takeWhile_imp hc
        · simpa using h2
        · intro c hc
          exact List.mem_takeWhile_imp hc
    · exact absurd h (by simp)

/-- Every pair produced by the `to`-range scan consists of two non-empty
digit runs. -/
theorem findToRangesAux_digit_tokens :
    ∀ (fuel : Nat) (cs : List Char) (ab : String × String),
      ab ∈ findToRangesAux fuel cs →
      (∃ l, ab.1 = String.mk l ∧ l.isEmpty = false ∧ ∀ c ∈ l, c.isDigit = true) ∧
      (∃ l, ab.2 = String.mk l ∧ l.isEmpty = false ∧ ∀ c ∈ l, c.isDigit = true)
  | 0, _, _, h => absurd h (by simp [findToRangesAux])
  | _ + 1, [], _, h => absurd h (by simp [findToRangesAux])
  | fuel + 1, c :: t, ab, h => by
    rw [findToRangesAux] at h
    split at h
    · rename_i a b rest heq
      rcases List.mem_cons.mp h with rfl | hmem
      · exact matchToRange_some heq
      · exact findToRangesAux_digit_tokens fuel rest ab hmem
    · exact findToRangesAux_digit_tokens fuel t ab h

/-- `pyInt` succeeds on both components of every scanned range pair. -/
theorem pyInt_ok_of_mem_findToRanges {cs : List Char} {ab : String × String}
    (h : ab ∈ findToRanges cs) :
    (∃ x, pyInt ab.1 = .ok x) ∧ ∃ y, pyInt ab.2 = .ok y := by
  obtain ⟨⟨l1, he1, hne1, hd1⟩, ⟨l2, he2, hne2, hd2⟩⟩ :=
    findToRangesAux_digit_tokens cs.length cs ab h
  refine ⟨⟨digitsVal l1, ?_⟩, ⟨digitsVal l2, ?_⟩⟩
  · rw [he1]
    exact pyInt_digits l1 hne1 hd1
  · rw [he2]
    exact pyInt_digits l2 hne2 hd2

/-- `mapM` over `Except` succeeds when it succeeds elementwise. -/
theorem mapM_ok {α β : Type} (f : α → Except PyErr β) :
    ∀ xs : List α, (∀ x ∈ xs, ∃ y, f x = .ok y) →
      ∃ ys, xs.mapM f = .ok ys
  | [], _ => ⟨[], rfl⟩
  | x :: xs, h => by
    obtain ⟨y, hy⟩ := h x (List.mem_cons_self x xs)
    obtain ⟨ys, hys⟩ := mapM_ok f xs (fun a ha => h a (List.mem_cons_of_mem x ha))
    refine ⟨y :: ys, ?_⟩
    rw [List.mapM_cons, hy, hys]
    rfl

/-- `_range_to_numbers` never raises and always returns an ascending
(sorted, not necessarily duplicate-free) list. -/
theorem range_to_numbers_ok_sorted (s : String) :
    ∃ l, range_to_numbers s = .ok l ∧ List.Sorted (· ≤ ·) l := by
  unfold range_to_numbers
  by_cases h : containsSub s "to" = true
  · rw [if_pos h]
    have hel : ∀ ab ∈ findToRanges s.toList, ∃ r, toRangeItem ab = .ok r := by
      intro ab hab
      obtain ⟨⟨x, hx⟩, ⟨y, hy⟩⟩ := pyInt_ok_of_mem_findToRanges hab
      refine ⟨pyRangeIncl x y, ?_⟩
      unfold toRangeItem
      rw [hx, hy]
      rfl
    obtain ⟨ys, hys⟩ := mapM_ok toRangeItem (findToRanges s.toList) hel
    refine ⟨pySorted ys.flatten, ?_, List.sorted_insertionSort _ _⟩
    rw [hys]
    rfl
  · rw [if_neg h]
    exact ⟨_, rfl, List.sorted_insertionSort _ _⟩

/-! ## Claim C6 and C10: `_range_to_numbers` -/

/-- Claim C6, counterexample to "contains no duplicates": on the input
`"1-3, 2"` (an overlapping range and number) `_range_to_numbers` returns
`[1, 2, 2, 3]`, which has a duplicate. -/
theorem range_to_numbers_duplicates_counterexample :
    range_to_numbers "1-3, 2" = .ok [1, 2, 2, 3] ∧
      ¬ ([1, 2, 2, 3] : List Nat).Nodup :=
  ⟨rfl, by decide⟩

/-- Claim C6 (amended): `_range_to_numbers` maps `"134-136, 234, 411"` to
`[134,135,136,234,411]` and `"10 to 14"` to `[10,11,12,13,14]`, and on
every input the returned list is sorted ascending; duplicates can occur
when ranges overlap, so "contains no duplicates" is dropped. -/
theorem range_to_numbers_examples_sorted :
    range_to_numbers "134-136, 234, 411" = .ok [134, 135, 136, 234, 411] ∧
      range_to_numbers "10 to 14" = .ok [10, 11, 12, 13, 14] ∧
      ∀ s, ∃ l, range_to_numbers s = .ok l ∧ List.Sorted (· ≤ ·) l :=
  ⟨rfl, rfl, range_to_numbers_ok_sorted⟩

/-- Claim C10: `_range_to_numbers` is total — on every input string it
returns (never raises) a sorted list of numbers — and non-numeric tokens
such as `"trunk"` or empty fragments are silently discarded rather than
causing an error or appearing in the result. -/
theorem range_to_numbers_total :
    (∀ s, ∃ l, range_to_numbers s = .ok l ∧ List.Sorted (· ≤ ·) l) ∧
      range_to_numbers "trunk" = .ok [] ∧
      range_to_numbers "1,trunk,, 5" = .ok [1, 5] ∧
      range_to_numbers "trunk,1 to 3 7 to 9" = .ok [1, 2, 3, 7, 8, 9] :=
  ⟨range_to_numbers_ok_sorted, rfl, rfl, rfl⟩

/-! ## Claim C1 and C7: the pagination loop of `send_command` -/

/-- On a synthetic stream of `N + 1` pages (the space prompt before every
page but the last), the pagination loop returns the pages joined with the
appended line breaks and sends exactly `N` single spaces. -/
theorem pageLoop_pagesScript :
    ∀ ps : List String, ps ≠ [] →
      pageLoop none (pagesScript ps) =
        (joinPages ps, List.replicate (ps.length - 1) (Send.raw " "))
  | [], h => absurd rfl h
  | [_], _ => rfl
  | p :: q :: r, _ => by
    have ih := pageLoop_pagesScript (q :: r) (by simp)
    simp only [pagesScript, joinPages, pageLoop, ih]
    simp [List.replicate]

/-- Claim C1, counterexample to "output equal to the concatenation of all
pages": with pages `"a"` and `"b"` (one space prompt before the prompt),
the executor sends one continuation space but returns `"a\nb"`, which is
not the plain concatenation `"ab"` — the loop appends a line break after
each continuation send. -/
theorem send_command_concat_counterexample :
    send_command ⟨"show ver", true, false, true, none⟩ (.hit "") (.hit "")
        [.more "a", .prompt "b"] (.hit "") =
      .ok ("a\nb", [Send.line "show ver", Send.raw " "]) ∧
      ("a\nb" : String) ≠ "a" ++ "b" :=
  ⟨rfl, by decide⟩

/-- Claim C1 (amended): for a synthetic stream in which the more banner
appears `N` times before the prompt, `send_command` performs exactly `N`
continuation sends of a single space each, and returns the `N + 1` pages
in order with a line break appended after each of the first `N` pages. -/
theorem send_command_pagination_roundtrip :
    ∀ (cmd : String) (ps : List String), ps ≠ [] →
      send_command ⟨cmd, true, false, true, none⟩ (.hit "") (.hit "")
          (pagesScript ps) (.hit "") =
        .ok (joinPages ps, Send.line cmd :: List.replicate (ps.length - 1) (Send.raw " ")) := by
  intro cmd ps h
  unfold send_command
  rw [if_neg (by simp [OneEv.isHit]), if_neg (by simp), if_pos (by simp)]
  rw [pageLoop_pagesScript ps h]
  rfl

/-- Witness for C1's amended round-trip theorem at three concrete pages. -/
theorem send_command_pagination_roundtrip_witness :
    send_command ⟨"show vlan", true, false, true, none⟩ (.hit "") (.hit "")
        (pagesScript ["pageA", "pageB", "pageC"]) (.hit "") =
      .ok (joinPages ["pageA", "pageB", "pageC"],
        Send.line "show vlan" :: List.replicate 2 (Send.raw " ")) :=
  send_command_pagination_roundtrip "show vlan" ["pageA", "pageB", "pageC"] (by decide)

/-- Claim C7: a timeout while waiting for the next page or for the prompt
never raises: (1) whenever the echo and `before_catch` phases succeed,
`send_command` returns `.ok` on every loop script and final event;
(2) a timeout inside the pagination loop aborts it and returns the partial
text captured so far; (3) in the non-paginated branch a timeout is
tolerated and the text read so far is returned. -/
theorem send_command_timeout_no_raise :
    (∀ (a : SCArgs) (echoEv beforeEv : OneEv) (loopScript : List LoopEv) (finalEv : OneEv),
        (a.expectCommand = true → echoEv.isHit = true) →
        (a.hasBeforeCatch = true → beforeEv.isHit = true) →
        ∃ out sends, send_command a echoEv beforeEv loopScript finalEv = .ok (out, sends)) ∧
      (∀ (b : String) (rest : List LoopEv), pageLoop none (LoopEv.tmo b :: rest) = (b, [])) ∧
      (∀ (cmd b : String) (pl : Option Nat) (e1 e2 : OneEv) (ls : List LoopEv),
        send_command ⟨cmd, false, false, false, pl⟩ e1 e2 ls (.tmo b) =
          .ok (b, [Send.line cmd])) := by
  refine ⟨?_, fun b rest => rfl, fun cmd b pl e1 e2 ls => rfl⟩
  intro a echoEv beforeEv loopScript finalEv h1 h2
  unfold send_command
  rw [if_neg (fun hc => hc.2 (h1 hc.1)), if_neg (fun hc => hc.2 (h2 hc.1))]
  by_cases hs : a.hasSpacePrompt = true
  · rw [if_pos hs]
    exact ⟨_, _, rfl⟩
  · rw [if_neg hs]
    cases finalEv with
    | hit b => exact ⟨b, _, rfl⟩
    | tmo b => exact ⟨b, _, rfl⟩

/-- Witness for C7 at a concrete paginated session whose second expect
times out. -/
theorem send_command_timeout_no_raise_witness :
    ∃ out sends,
      send_command ⟨"show arp", true, true, true, none⟩ (.hit "x") (.hit "y")
          [.more "a", .tmo "b"] (.hit "") = .ok (out, sends) :=
  send_command_timeout_no_raise.1 ⟨"show arp", true, true, true, none⟩
    (.hit "x") (.hit "y") [.more "a", .tmo "b"] (.hit "")
    (fun _ => rfl) (fun _ => rfl)

/-! ## Claim C3 and C8: SSH override accumulation -/

/-- In a script segment with no kex-resolving event, the inner SSH loop
never changes the kex override, every respawn it performs carries the
current kex override, and the unconsumed script is a subset of the
segment. -/
theorem sshLoop_kex_stable :
    ∀ (script : List SSHEv) (host login password alg ciph : String),
      (∀ e ∈ script, kexResolving e = false) →
      (sshLoop host login password alg ciph script).alg = alg ∧
        (∀ sp ∈ (sshLoop host login password alg ciph script).spawns, sp.algStr = alg) ∧
        (∀ e ∈ (sshLoop host login password alg ciph script).rest, e ∈ script)
  | [], _, _, _, _, _, _ => ⟨rfl, by simp [sshLoop], by simp [sshLoop]⟩
  | .kexRej eofText :: rest, host, l, p, alg, ciph, h => by
    have hk : (findOffer eofText).isSome = false := by
      simpa [kexResolving] using h (.kexRej eofText) (List.mem_cons_self _ _)
    have hnone : findOffer eofText = none := Option.not_isSome_iff_eq_none.mp (by simp [hk])
    have ih := sshLoop_kex_stable rest host l p alg ciph
      (fun e he => h e (List.mem_cons_of_mem _ he))
    simp only [sshLoop, hnone]
    exact ⟨ih.1, ih.2.1, fun e he => List.mem_cons_of_mem _ (ih.2.2 e he)⟩
  | .ciphRej eofText :: rest, host, l, p, alg, ciph, h => by
    have ih := fun c => sshLoop_kex_stable rest host l p alg c
      (fun e he => h e (List.mem_cons_of_mem _ he))
    simp only [sshLoop]
    cases hoff : findOffer eofText with
    | none =>
      exact ⟨(ih ciph).1, (ih ciph).2.1, fun e he => List.mem_cons_of_mem _ ((ih ciph).2.2 e he)⟩
    | some c =>
      refine ⟨(ih (ciphOpt c)).1, ?_, ?_⟩
      · intro sp hsp
        rcases List.mem_cons.mp hsp with rfl | hmem
        · rfl
        · exact (ih (ciphOpt c)).2.1 sp hmem
      · exact fun e he => List.mem_cons_of_mem _ ((ih (ciphOpt c)).2.2 e he)
  | .hostAuth :: rest, host, l, p, alg, ciph, h => by
    have ih := sshLoop_kex_stable rest host l p alg ciph
      (fun e he => h e (List.mem_cons_of_mem _ he))
    simp only [sshLoop]
    exact ⟨ih.1, ih.2.1, fun e he => List.mem_cons_of_mem _ (ih.2.2 e he)⟩
  | .passPrompt accepted :: rest, host, l, p, alg, ciph, h =>
    ⟨rfl, by simp [sshLoop], fun e he => List.mem_cons_of_mem _ he⟩
  | .shellPrompt :: rest, host, l, p, alg, ciph, h =>
    ⟨rfl, by simp [sshLoop], fun e he => List.mem_cons_of_mem _ he⟩
  | .connClosed :: rest, host, l, p, alg, ciph, h => by
    have ih := sshLoop_kex_stable rest host l p alg ciph
      (fun e he => h e (List.mem_cons_of_mem _ he))
    simp only [sshLoop]
    exact ⟨ih.1, ih.2.1, fun e he => List.mem_cons_of_mem _ (ih.2.2 e he)⟩

/-- In a script segment with no kex-resolving event, every spawn of the
whole credential `for` loop carries the kex override it started with. -/
theorem sshAttempt_kex_stable :
    ∀ (creds : List (String × String)) (host alg ciph : String) (script : List SSHEv),
      (∀ e ∈ script, kexResolving e = false) →
      ∀ sp ∈ (sshAttempt host creds alg ciph script).spawns, sp.algStr = alg
  | [], _, _, _, _, _, sp, hsp => absurd hsp (by simp [sshAttempt])
  | (l, p) :: creds, host, alg, ciph, script, h, sp, hsp => by
    obtain ⟨halg, hspawns, hrest⟩ := sshLoop_kex_stable script host l p alg ciph h
    rw [sshAttempt] at hsp
    rcases hexit : (sshLoop host l p alg ciph script).exit with hc | hn | hs
    all_goals rw [hexit] at hsp
    · rcases List.mem_cons.mp hsp with rfl | hmem
      · rfl
      · exact hspawns sp hmem
    · rcases List.mem_cons.mp hsp with rfl | hmem
      · rfl
      · rcases List.mem_append.mp hmem with hmem1 | hmem2
        · exact hspawns sp hmem1
        · have := sshAttempt_kex_stable creds host
            (sshLoop host l p alg ciph script).alg (sshLoop host l p alg ciph script).ciph
            (sshLoop host l p alg ciph script).rest
            (fun e he => h e (hrest e he)) sp hmem2
          rw [halg] at this
          exact this
    · rcases List.mem_cons.mp hsp with rfl | hmem
      · rfl
      · exact hspawns sp hmem

/-- Claim C3: once a kex override `a` is resolved after a key-exchange
rejection, every subsequent respawn of the SSH client — the resolving
respawn itself, respawns for later cipher rejections, and the spawns for
the following credential pairs — still carries `-oKexAlgorithms=+a`, as
long as no further kex rejection rewrites it.  Overrides accumulate and
are never reset. -/
theorem ssh_kex_override_persists :
    ∀ (host l p : String) (creds : List (String × String)) (ciph eofText a : String)
      (rest : List SSHEv),
      findOffer eofText = some a →
      (∀ e ∈ rest, kexResolving e = false) →
      ∀ sp ∈ (sshAttempt host ((l, p) :: creds) "" ciph
          (SSHEv.kexRej eofText :: rest)).spawns.tail,
        sp.algStr = kexOpt a := by
  intro host l p creds ciph eofText a rest hoff hnk
  have hstab := sshLoop_kex_stable rest host l p (kexOpt a) ciph hnk
  have hloop : sshLoop host l p "" ciph (SSHEv.kexRej eofText :: rest) =
      ⟨(sshLoop host l p (kexOpt a) ciph rest).alg,
        (sshLoop host l p (kexOpt a) ciph rest).ciph,
        SpawnCmd.mk l host (kexOpt a) ciph :: (sshLoop host l p (kexOpt a) ciph rest).spawns,
        (sshLoop host l p (kexOpt a) ciph rest).sends,
        (sshLoop host l p (kexOpt a) ciph rest).rest,
        (sshLoop host l p (kexOpt a) ciph rest).exit⟩ := by
    simp only [sshLoop, hoff]
  intro sp hsp
  rw [sshAttempt, hloop] at hsp
  rcases hexit : (sshLoop host l p (kexOpt a) ciph rest).exit with _ | _ | _ <;>
    rw [hexit] at hsp <;> simp only [List.tail_cons] at hsp
  · rcases List.mem_cons.mp hsp with rfl | hmem
    · rfl
    · exact hstab.2.1 sp hmem
  · rcases List.mem_cons.mp hsp with rfl | hmem
    · rfl
    · rcases List.mem_append.mp hmem with hmem1 | hmem2
      · exact hstab.2.1 sp hmem1
      · have h2 := sshAttempt_kex_stable creds host
          (sshLoop host l p (kexOpt a) ciph rest).alg
          (sshLoop host l p (kexOpt a) ciph rest).ciph
          (sshLoop host l p (kexOpt a) ciph rest).rest
          (fun e he => hnk e (hstab.2.2 e he)) sp hmem2
        rw [hstab.1] at h2
        exact h2
  · rcases List.mem_cons.mp hsp with rfl | hmem
    · rfl
    · exact hstab.2.1 sp hmem

/-- Witness for C3: one credential pair plus the admin fallback; after the
kex rejection resolves `diffie-hellman-group1-sha1`, a cipher rejection and
a rejected password follow, and both the cipher respawn and the next
credential's spawn still carry the kex override. -/
theorem ssh_kex_override_persists_witness :
    findOffer "Unable to negotiate: no matching key exchange method found. Their offer: diffie-hellman-group1-sha1" =
        some "diffie-hellman-group1-sha1" ∧
      (∀ e ∈ [SSHEv.ciphRej "Their offer: aes128-cbc,3des-cbc", SSHEv.passPrompt false,
          SSHEv.passPrompt true], kexResolving e = false) ∧
      ∀ sp ∈ (sshAttempt "10.0.0.1" [("user", "pw")] "" ""
          (SSHEv.kexRej "Unable to negotiate: no matching key exchange method found. Their offer: diffie-hellman-group1-sha1" ::
            [SSHEv.ciphRej "Their offer: aes128-cbc,3des-cbc", SSHEv.passPrompt false,
              SSHEv.passPrompt true])).spawns.tail,
        sp.algStr = kexOpt "diffie-hellman-group1-sha1" :=
  ⟨rfl, by decide,
    ssh_kex_override_persists "10.0.0.1" "user" "pw" [] ""
      "Unable to negotiate: no matching key exchange method found. Their offer: diffie-hellman-group1-sha1"
      "diffie-hellman-group1-sha1"
      [SSHEv.ciphRej "Their offer: aes128-cbc,3des-cbc", SSHEv.passPrompt false,
        SSHEv.passPrompt true]
      rfl (by decide)⟩

/-- Claim C8: on a cipher rejection whose `Their offer:` field lists
ciphers separated by commas, the negotiator respawns the SSH client with
`-c` set to the last cipher of the offered list, keeping the current kex
override. -/
theorem ssh_cipher_last_offer :
    ∀ (host l p alg ciph eofText c : String) (rest : List SSHEv),
      findOffer eofText = some c →
      ∃ spawnsTail,
        (sshLoop host l p alg ciph (SSHEv.ciphRej eofText :: rest)).spawns =
          SpawnCmd.mk l host alg (" -c " ++ lastCipher c) :: spawnsTail := by
  intro host l p alg ciph eofText c rest hoff
  refine ⟨(sshLoop host l p alg (ciphOpt c) rest).spawns, ?_⟩
  simp only [sshLoop, hoff, ciphOpt]

/-- Witness for C8: the offer `aes128-cbc,3des-cbc,aes256-cbc` makes the
respawn select `aes256-cbc`, its last element. -/
theorem ssh_cipher_last_offer_witness :
    findOffer "no matching cipher found. Their offer: aes128-cbc,3des-cbc,aes256-cbc" =
        some "aes128-cbc,3des-cbc,aes256-cbc" ∧
      lastCipher "aes128-cbc,3des-cbc,aes256-cbc" = "aes256-cbc" ∧
      ∃ spawnsTail,
        (sshLoop "10.0.0.2" "user" "pw" " -oKexAlgorithms=+diffie-hellman-group1-sha1" ""
            (SSHEv.ciphRej "no matching cipher found. Their offer: aes128-cbc,3des-cbc,aes256-cbc" :: [])).spawns =
          SpawnCmd.mk "user" "10.0.0.2" " -oKexAlgorithms=+diffie-hellman-group1-sha1"
            (" -c " ++ lastCipher "aes128-cbc,3des-cbc,aes256-cbc") :: spawnsTail :=
  ⟨rfl, rfl,
    ssh_cipher_last_offer "10.0.0.2" "user" "pw"
      " -oKexAlgorithms=+diffie-hellman-group1-sha1" ""
      "no matching cipher found. Their offer: aes128-cbc,3des-cbc,aes256-cbc"
      "aes128-cbc,3des-cbc,aes256-cbc" [] rfl⟩

/-! ## Claim C2: telnet credential cycling -/

/-- Claim C2 is false of the code (code bug): with two credential pairs
and a stream in which every password entry is followed by a fresh login
prompt (three rejection cycles), the negotiator re-sends the first pair at
every cycle — the `continue` on a login-style prompt never lets the
credential `for` loop advance — so the second pair is never tried and the
branch ends with the timeout message once the stream stalls, not with the
exhausted-credentials login failure the claim (and spec §4.2) describes. -/
theorem telnet_same_pair_retried_forever :
    telnetConnect [("user1", "pw1"), ("user2", "pw2")]
        [TelEv.loginP, TelEv.passP, TelEv.loginP, TelEv.passP, TelEv.loginP, TelEv.passP] =
      ⟨["user1", "pw1", "user1", "pw1", "user1", "pw1"], TelRes.timeoutMsg⟩ ∧
      (∀ s ∈ (telnetConnect [("user1", "pw1"), ("user2", "pw2")]
          [TelEv.loginP, TelEv.passP, TelEv.loginP, TelEv.passP, TelEv.loginP, TelEv.passP]).sends,
        s ≠ "user2") ∧
      (telnetConnect [("user1", "pw1"), ("user2", "pw2")]
          [TelEv.loginP, TelEv.passP, TelEv.loginP, TelEv.passP, TelEv.loginP, TelEv.passP]).result ≠
        TelRes.badCredentials :=
  ⟨rfl, by decide, by decide⟩

/-! ## Claim C4: vendor classification is ordered first-match -/

/-- Claim C4: vendor classification is deterministic (it is a pure
function of the accumulated probe output and the secondary probe data) and
first-match-wins: the source's if/elif chain equals first-match evaluation
of the ordered signature table, and in particular a text matching the
generic `Unrecognized command` rule (and no earlier rule) classifies as
the Huawei constructor even when later vendor patterns also match. -/
theorem classify_first_match :
    (∀ version eltexModel probe2 : String,
        classifyDevice version eltexModel probe2 =
          firstMatch (sigRules eltexModel probe2) version) ∧
      ∀ version eltexModel probe2 : String,
        containsSub version "Image stamp:" = false →
        containsSub version " ZTE Corporation:" = false →
        containsSub version "Unrecognized command" = true →
        classifyDevice version eltexModel probe2 = CTag.huawei := by
  constructor
  · intro version eltexModel probe2
    rfl
  · intro version eltexModel probe2 h1 h2 h3
    unfold classifyDevice
    rw [if_neg (by simp [h1]), if_neg (by simp [h2]), if_pos (by simp [h3])]

/-- Witness for C4 at a probe output that matches both the generic
`Unrecognized command` rule and the later `cisco` and `QTECH` rules: the
earlier rule wins in both formulations. -/
theorem classify_first_match_witness :
    containsSub "Unrecognized command: cisco QTECH Hardware version" "Image stamp:" = false ∧
      containsSub "Unrecognized command: cisco QTECH Hardware version" " ZTE Corporation:" = false ∧
      containsSub "Unrecognized command: cisco QTECH Hardware version" "Unrecognized command" = true ∧
      classifyDevice "Unrecognized command: cisco QTECH Hardware version" "" "" = CTag.huawei ∧
      classifyDevice "Unrecognized command: cisco QTECH Hardware version" "" "" =
        firstMatch (sigRules "" "") "Unrecognized command: cisco QTECH Hardware version" :=
  ⟨by decide, by decide, by decide,
    classify_first_match.2 "Unrecognized command: cisco QTECH Hardware version" "" ""
      (by decide) (by decide) (by decide),
    classify_first_match.1 "Unrecognized command: cisco QTECH Hardware version" "" ""⟩

/-! ## Claim C9: ZTE refuses destructive operations when unprivileged -/

/-- Claim C9: when privileged-mode elevation did not succeed during
`ZTE.__init__` (any enable outcome that leaves `__privileged` false),
`reload_port` and `set_port` return the refusal message without sending
any port disable/enable command and without raising, for every port and
status and whatever `save_config` would do. -/
theorem zte_unprivileged_refusal :
    ∀ (ev : ZteEnableEv) (port status : String) (saveSends : List String)
      (saveResult : String),
      ztePrivileged ev = false →
      zteReloadPort (ztePrivileged ev) port saveSends saveResult = ([], ztePrivRefusal) ∧
        zteSetPort (ztePrivileged ev) port status saveSends saveResult = ([], ztePrivRefusal) := by
  intro ev port status saveSends saveResult h
  rw [h]
  exact ⟨rfl, rfl⟩

/-- Witness for C9: elevation fails with the `Simultaneous` response;
`reload_port` and `set_port` on port 5 send nothing and refuse. -/
theorem zte_unprivileged_refusal_witness :
    ztePrivileged ZteEnableEv.simultaneous = false ∧
      zteReloadPort (ztePrivileged ZteEnableEv.simultaneous) "5" ["saveconfig"] "Saved OK" =
        ([], ztePrivRefusal) ∧
      zteSetPort (ztePrivileged ZteEnableEv.simultaneous) "5" "up" ["saveconfig"] "Saved OK" =
        ([], ztePrivRefusal) :=
  ⟨rfl,
    (zte_unprivileged_refusal ZteEnableEv.simultaneous "5" "up" ["saveconfig"] "Saved OK" rfl).1,
    (zte_unprivileged_refusal ZteEnableEv.simultaneous "5" "up" ["saveconfig"] "Saved OK" rfl).2⟩

/-! ## Claim C5: invalid port identifiers and `get_mac` -/

/-- Claim C5 is false of the code (code bug): the ZTE driver indeed
returns `[]` for every invalid (non-numeric) port without sending
anything, but drivers that normalise ports with `_interface_normal_view`
(Huawei, Cisco) raise `IndexError` on a port name such as `"Eth"` that
matches an interface-type prefix yet contains no digits, because
`re.findall(...)[0][0]` indexes an empty match list; the source's own
doctest inputs evaluate correctly in the same model. -/
theorem get_mac_invalid_port_eval :
    interface_normal_view "Eth" = .error .indexError ∧
      huawei_get_mac_command "Eth" = .error .indexError ∧
      zteGetMacAction "trunk" = ([], false) ∧
      zteGetMacAction "1/0" = ([], false) ∧
      interface_normal_view "Eth 0/1" = .ok "Ethernet 0/1" ∧
      interface_normal_view "GE1/0/12" = .ok "GigabitEthernet 1/0/12" :=
  ⟨rfl, rfl, rfl, rfl, rfl, rfl⟩
